import Mathlib

/-!
Shallow embedding of the Groth-Sahai SXDH commitment module (`src/commit.rs`)
of `groth-sahai-rs`, together with proofs of the specified properties.

The commitment engine is generic over a pairing engine `E`; we model the
scalar field `Fr` as a commutative ring and the source groups `G1`, `G2` as
additive commutative groups that are modules over `Fr`.  The commitment
groups `B1`, `B2` are pairs of source-group elements.  The randomness source
(`rng: &mut CR`) is modelled as a stream of scalars with a position counter;
each `E::Fr::rand(rng)` call reads the scalar at the current position and
advances the counter, and every operation returns the advanced source
alongside its result, mirroring Rust's `&mut` threading.
-/

set_option linter.unusedSectionVars false

namespace GS

/-- Modelled from the spec: the randomness source.  External collaborator
(arithmetic provider): uniform random scalar sampling given a randomness
source.  A draw returns the scalar at the current position of the stream and
advances the position, so successive draws are distinct fresh positions. -/
structure Rng (Fr : Type) where
  stream : Nat → Fr
  pos : Nat

/-- Modelled from the spec: one uniform draw (`E::Fr::rand(rng)`). -/
def Rng.rand {Fr : Type} (rng : Rng Fr) : Fr × Rng Fr :=
  (rng.stream rng.pos, ⟨rng.stream, rng.pos + 1⟩)

/-- Modelled from the spec: the side-1 commitment group `B1` is algebraically
a pair of `G1` elements (B1 is G1 x G1 in representation), with componentwise
addition and scalar multiplication. -/
abbrev Com1 (G1 : Type) := G1 × G1

/-- Modelled from the spec: the side-2 commitment group `B2` is algebraically
a pair of `G2` elements. -/
abbrev Com2 (G2 : Type) := G2 × G2

/-- Modelled from the spec: scalar multiplication of a commitment-group
element (`.scalar_mul(&r)` from the arithmetic provider). -/
def scalar_mul {Fr C : Type} [SMul Fr C] (c : C) (r : Fr) : C := r • c

/-- Modelled from the spec: `Matrix<T>` is a rectangular row-major array,
here a list of rows. -/
abbrev Mat (α : Type) := List (List α)

/-- Modelled from the spec: entrywise addition of equal-dimension matrices
(`Matrix::add` from the matrix algebra provider). -/
def Mat.add {α : Type} [Add α] (A B : Mat α) : Mat α :=
  List.zipWith (List.zipWith (· + ·)) A B

/-- Modelled from the spec: `self.left_mul(&lhs, ..)` computes the matrix
product `lhs * self`, entry `(i, j)` being the sum over `k` of
`lhs[i][k] • self[k][j]` (scalar-by-group products). -/
def Mat.left_mul {Fr C : Type} [AddCommMonoid C] [SMul Fr C]
    (A : Mat C) (lhs : Mat Fr) : Mat C :=
  lhs.map (fun row =>
    (List.range (A.headD []).length).map (fun j =>
      (List.zipWith (fun s arow => s • arow.getD j (0 : C)) row A).sum))

/-- Modelled from the spec: reshape a flat ordered sequence into a
single-column matrix. -/
def vec_to_col_vec {α : Type} (v : List α) : Mat α :=
  v.map (fun x => [x])

/-- Modelled from the spec: flatten a single-column matrix back into a flat
ordered sequence, preserving order (each row contributes its entry 0). -/
def col_vec_to_vec {α : Type} [Zero α] (M : Mat α) : List α :=
  M.map (fun row => row.getD 0 0)

/-- Modelled from the spec: the commitment key (CRS).  The module reads two
fixed matrices of basis elements: `u` with `Com1` entries and `v` with `Com2`
entries, each of shape 2 x 1 (two basis rows, one `Com` column). -/
structure CRS (G1 G2 : Type) where
  u : Mat (Com1 G1)
  v : Mat (Com2 G2)

/-- The key entry `key.u[0][0]` read by the side-1 commitments. -/
def CRS.u00 {G1 G2 : Type} [Zero G1] (key : CRS G1 G2) : Com1 G1 :=
  (key.u.getD 0 []).getD 0 0

/-- The key entry `key.u[1][0]` read by the side-1 commitments. -/
def CRS.u10 {G1 G2 : Type} [Zero G1] (key : CRS G1 G2) : Com1 G1 :=
  (key.u.getD 1 []).getD 0 0

/-- The key entry `key.v[0][0]` read by the side-2 commitments. -/
def CRS.v00 {G1 G2 : Type} [Zero G2] (key : CRS G1 G2) : Com2 G2 :=
  (key.v.getD 0 []).getD 0 0

/-- The key entry `key.v[1][0]` read by the side-2 commitments. -/
def CRS.v10 {G1 G2 : Type} [Zero G2] (key : CRS G1 G2) : Com2 G2 :=
  (key.v.getD 1 []).getD 0 0

/-- Modelled from the spec: the fixed injective group-element embedding
`i_1 : G1 -> B1`, sending `X` to `(O, X)` (as documented at the call site in
`batch_commit_G1`: `i_1(X) = [ (O, X_1), ..., (O, X_m) ]`). -/
def Com1.linear_map {G1 : Type} [Zero G1] (x : G1) : Com1 G1 := (0, x)

/-- Modelled from the spec: the batched variant of `i_1`, applying the same
embedding across an ordered sequence. -/
def Com1.batch_linear_map {G1 : Type} [Zero G1] (xs : List G1) : List (Com1 G1) :=
  xs.map Com1.linear_map

/-- Modelled from the spec: the fixed injective group-element embedding
`i_2 : G2 -> B2`, sending `Y` to `(O, Y)`. -/
def Com2.linear_map {G2 : Type} [Zero G2] (y : G2) : Com2 G2 := (0, y)

/-- Modelled from the spec: the batched variant of `i_2`. -/
def Com2.batch_linear_map {G2 : Type} [Zero G2] (ys : List G2) : List (Com2 G2) :=
  ys.map Com2.linear_map

section Engine

variable {Fr G1 G2 : Type} [CommRing Fr]
variable [AddCommGroup G1] [Module Fr G1] [AddCommGroup G2] [Module Fr G2]

/-- Modelled from the spec: the scalar-specific embedding
`i_1' : Fr -> B1` (`Com1::scalar_linear_map`), supplied by the embedding
provider.  The spec fixes only that it is a fixed deterministic map, distinct
from the group-element embedding, reading the scalar and the key; we keep it
abstract and pass it as a parameter `slm1`. -/
def scalar_linear_map_sig (Fr G1 G2 : Type) : Type :=
  Fr → CRS G1 G2 → Com1 G1

/-- Modelled from the spec: the scalar-specific embedding
`i_2' : Fr -> B2` (`Com2::scalar_linear_map`), kept abstract as `slm2`. -/
def scalar_linear_map_sig2 (Fr G1 G2 : Type) : Type :=
  Fr → CRS G1 G2 → Com2 G2

/-- The deterministic core of `commit_G1`, after the two scalars have been
drawn: `c := i_1(x) + r_1 u_1 + r_2 u_2`. -/
def commit_G1_core (xvar : G1) (key : CRS G1 G2) (r1 r2 : Fr) : Com1 G1 :=
  Com1.linear_map xvar + scalar_mul key.u00 r1 + scalar_mul key.u10 r2

/-- `commit_G1`: draw `(r1, r2)` and return
`Com1::linear_map(&xvar) + key.u[0][0].scalar_mul(&r1) + key.u[1][0].scalar_mul(&r2)`. -/
def commit_G1 (xvar : G1) (key : CRS G1 G2) (rng : Rng Fr) : Com1 G1 × Rng Fr :=
  let (r1, rng) := rng.rand
  let (r2, rng) := rng.rand
  (commit_G1_core xvar key r1 r2, rng)

/-- The randomness matrix of the group-element batch commitments: the source
loop runs `m` times and each iteration pushes `vec![E::Fr::rand(rng); 2]` -
Rust's vec-repeat evaluates the draw ONCE and clones it, so each row is
`[r, r]` for a single fresh `r`. -/
def sample_shared_rows (m : Nat) (rng : Rng Fr) : Mat Fr × Rng Fr :=
  match m with
  | 0 => ([], rng)
  | Nat.succ k =>
    let (r, rng) := rng.rand
    let (rest, rng) := sample_shared_rows k rng
    ([r, r] :: rest, rng)

/-- The deterministic part of `batch_commit_G1` with the randomness matrix
`R` substituted: `c := i_1(X) + R u` as an `m x 1` matrix, flattened. -/
def batch_commit_G1_with_R (xvars : List G1) (key : CRS G1 G2) (R : Mat Fr) :
    List (Com1 G1) :=
  let lin_x : Mat (Com1 G1) := vec_to_col_vec (Com1.batch_linear_map xvars)
  let coms := Mat.add lin_x (Mat.left_mul key.u R)
  col_vec_to_vec coms

/-- `batch_commit_G1`: sample the `m x 2` matrix `R` row by row (one cloned
draw per row, see `sample_shared_rows`), then compute `i_1(X) + R u`. -/
def batch_commit_G1 (xvars : List G1) (key : CRS G1 G2) (rng : Rng Fr) :
    List (Com1 G1) × Rng Fr :=
  let (R, rng) := sample_shared_rows xvars.length rng
  (batch_commit_G1_with_R xvars key R, rng)

/-- The deterministic core of `commit_scalar_to_B1` after the single draw:
`c := i_1'(x) + r u_1`. -/
def commit_scalar_to_B1_core (slm1 : scalar_linear_map_sig Fr G1 G2)
    (scalar_xvar : Fr) (key : CRS G1 G2) (r : Fr) : Com1 G1 :=
  slm1 scalar_xvar key + scalar_mul key.u00 r

/-- `commit_scalar_to_B1`: draw one scalar `r` and return
`Com1::scalar_linear_map(scalar_xvar, key) + key.u[0][0].scalar_mul(&r)`. -/
def commit_scalar_to_B1 (slm1 : scalar_linear_map_sig Fr G1 G2)
    (scalar_xvar : Fr) (key : CRS G1 G2) (rng : Rng Fr) : Com1 G1 × Rng Fr :=
  let (r, rng) := rng.rand
  (commit_scalar_to_B1_core slm1 scalar_xvar key r, rng)

/-- The randomness column of the scalar batch commitments: the source loop
runs `mprime` times, each iteration pushing `vec![E::Fr::rand(rng)]`, a
one-entry row holding one fresh draw. -/
def sample_col (m : Nat) (rng : Rng Fr) : Mat Fr × Rng Fr :=
  match m with
  | 0 => ([], rng)
  | Nat.succ k =>
    let (r, rng) := rng.rand
    let (rest, rng) := sample_col k rng
    ([r] :: rest, rng)

/-- Modelled from the spec: the batched variant of `i_1'`, applying the same
scalar embedding across an ordered sequence. -/
def Com1.batch_scalar_linear_map (slm1 : scalar_linear_map_sig Fr G1 G2)
    (xs : List Fr) (key : CRS G1 G2) : List (Com1 G1) :=
  xs.map (fun x => slm1 x key)

/-- The deterministic part of `batch_commit_scalar_to_B1` with the randomness
column `r` substituted: `c := i_1'(x) + r u_1` as an `mprime x 1` matrix,
where the randomization column multiplies only `key.u[0][0]`. -/
def batch_commit_scalar_to_B1_with_r (slm1 : scalar_linear_map_sig Fr G1 G2)
    (scalar_xvars : List Fr) (key : CRS G1 G2) (r : Mat Fr) : List (Com1 G1) :=
  let slin_x : Mat (Com1 G1) :=
    vec_to_col_vec (Com1.batch_scalar_linear_map slm1 scalar_xvars key)
  let ru : Mat (Com1 G1) :=
    vec_to_col_vec ((col_vec_to_vec r).map (fun sca => scalar_mul key.u00 sca))
  let coms : Mat (Com1 G1) := Mat.add slin_x ru
  col_vec_to_vec coms

/-- `batch_commit_scalar_to_B1`: sample the `mprime x 1` column `r` (one
fresh draw per input), then compute `i_1'(x) + r u_1`. -/
def batch_commit_scalar_to_B1 (slm1 : scalar_linear_map_sig Fr G1 G2)
    (scalar_xvars : List Fr) (key : CRS G1 G2) (rng : Rng Fr) :
    List (Com1 G1) × Rng Fr :=
  let (r, rng) := sample_col scalar_xvars.length rng
  (batch_commit_scalar_to_B1_with_r slm1 scalar_xvars key r, rng)

/-- The deterministic core of `commit_G2` after the two draws:
`d := i_2(y) + s_1 v_1 + s_2 v_2`. -/
def commit_G2_core (yvar : G2) (key : CRS G1 G2) (s1 s2 : Fr) : Com2 G2 :=
  Com2.linear_map yvar + scalar_mul key.v00 s1 + scalar_mul key.v10 s2

/-- `commit_G2`: draw `(s1, s2)` and return
`Com2::linear_map(&yvar) + key.v[0][0].scalar_mul(&s1) + key.v[1][0].scalar_mul(&s2)`. -/
def commit_G2 (yvar : G2) (key : CRS G1 G2) (rng : Rng Fr) : Com2 G2 × Rng Fr :=
  let (s1, rng) := rng.rand
  let (s2, rng) := rng.rand
  (commit_G2_core yvar key s1 s2, rng)

/-- The deterministic part of `batch_commit_G2` with the randomness matrix
`S` substituted: `d := i_2(Y) + S v`, flattened. -/
def batch_commit_G2_with_S (yvars : List G2) (key : CRS G1 G2) (S : Mat Fr) :
    List (Com2 G2) :=
  let lin_y : Mat (Com2 G2) := vec_to_col_vec (Com2.batch_linear_map yvars)
  let coms := Mat.add lin_y (Mat.left_mul key.v S)
  col_vec_to_vec coms

/-- `batch_commit_G2`: sample the `n x 2` matrix `S` row by row (one cloned
draw per row, `vec![E::Fr::rand(rng); 2]`), then compute `i_2(Y) + S v`. -/
def batch_commit_G2 (yvars : List G2) (key : CRS G1 G2) (rng : Rng Fr) :
    List (Com2 G2) × Rng Fr :=
  let (S, rng) := sample_shared_rows yvars.length rng
  (batch_commit_G2_with_S yvars key S, rng)

/-- The deterministic core of `commit_scalar_to_B2` after the single draw:
`d := i_2'(y) + s v_1`. -/
def commit_scalar_to_B2_core (slm2 : scalar_linear_map_sig2 Fr G1 G2)
    (scalar_yvar : Fr) (key : CRS G1 G2) (s : Fr) : Com2 G2 :=
  slm2 scalar_yvar key + scalar_mul key.v00 s

/-- `commit_scalar_to_B2`: draw one scalar `s` and return
`Com2::scalar_linear_map(scalar_yvar, key) + key.v[0][0].scalar_mul(&s)`. -/
def commit_scalar_to_B2 (slm2 : scalar_linear_map_sig2 Fr G1 G2)
    (scalar_yvar : Fr) (key : CRS G1 G2) (rng : Rng Fr) : Com2 G2 × Rng Fr :=
  let (s, rng) := rng.rand
  (commit_scalar_to_B2_core slm2 scalar_yvar key s, rng)

/-- Modelled from the spec: the batched variant of `i_2'`. -/
def Com2.batch_scalar_linear_map (slm2 : scalar_linear_map_sig2 Fr G1 G2)
    (ys : List Fr) (key : CRS G1 G2) : List (Com2 G2) :=
  ys.map (fun y => slm2 y key)

/-- The deterministic part of `batch_commit_scalar_to_B2` with the randomness
column `s` substituted. -/
def batch_commit_scalar_to_B2_with_s (slm2 : scalar_linear_map_sig2 Fr G1 G2)
    (scalar_yvars : List Fr) (key : CRS G1 G2) (s : Mat Fr) : List (Com2 G2) :=
  let slin_y : Mat (Com2 G2) :=
    vec_to_col_vec (Com2.batch_scalar_linear_map slm2 scalar_yvars key)
  let sv : Mat (Com2 G2) :=
    vec_to_col_vec ((col_vec_to_vec s).map (fun sca => scalar_mul key.v00 sca))
  let coms : Mat (Com2 G2) := Mat.add slin_y sv
  col_vec_to_vec coms

/-- `batch_commit_scalar_to_B2`: sample the `nprime x 1` column `s` (one
fresh draw per input), then compute `i_2'(y) + s v_1`. -/
def batch_commit_scalar_to_B2 (slm2 : scalar_linear_map_sig2 Fr G1 G2)
    (scalar_yvars : List Fr) (key : CRS G1 G2) (rng : Rng Fr) :
    List (Com2 G2) × Rng Fr :=
  let (s, rng) := sample_col scalar_yvars.length rng
  (batch_commit_scalar_to_B2_with_s slm2 scalar_yvars key s, rng)

end Engine

/-- Spec-side definition, following section 4.5 of the spec: the single
group-element commitment algorithm parametrized on which key matrix and which
embedding are used.  Draw `(r1, r2)` and return
`embed(x) + r1 * keyM[0][0] + r2 * keyM[1][0]`. -/
def commit_generic {Fr A C : Type} [AddCommMonoid C] [SMul Fr C]
    (keyM : Mat C) (embed : A → C) (x : A) (rng : Rng Fr) : C × Rng Fr :=
  let (r1, rng) := rng.rand
  let (r2, rng) := rng.rand
  (embed x + scalar_mul ((keyM.getD 0 []).getD 0 0) r1
    + scalar_mul ((keyM.getD 1 []).getD 0 0) r2, rng)

/-- Spec-side definition, following section 4.5: the batch group-element
commitment algorithm parametrized on the key matrix and embedding. -/
def batch_commit_generic {Fr A C : Type} [AddCommMonoid C] [SMul Fr C]
    (keyM : Mat C) (embed : A → C) (xs : List A) (rng : Rng Fr) :
    List C × Rng Fr :=
  let (R, rng) := sample_shared_rows xs.length rng
  (col_vec_to_vec (Mat.add (vec_to_col_vec (xs.map embed))
    (Mat.left_mul keyM R)), rng)

/-- Spec-side definition, following section 4.5: the single scalar commitment
algorithm parametrized on the key matrix and scalar embedding.  Draw `r` and
return `embed(x) + r * keyM[0][0]`. -/
def commit_scalar_generic {Fr C : Type} [AddCommMonoid C] [SMul Fr C]
    (keyM : Mat C) (embed : Fr → C) (x : Fr) (rng : Rng Fr) : C × Rng Fr :=
  let (r, rng) := rng.rand
  (embed x + scalar_mul ((keyM.getD 0 []).getD 0 0) r, rng)

/-- Spec-side definition, following section 4.5: the batch scalar commitment
algorithm parametrized on the key matrix and scalar embedding. -/
def batch_commit_scalar_generic {Fr C : Type} [Zero Fr] [AddCommMonoid C] [SMul Fr C]
    (keyM : Mat C) (embed : Fr → C) (xs : List Fr) (rng : Rng Fr) :
    List C × Rng Fr :=
  let (r, rng) := sample_col xs.length rng
  (col_vec_to_vec (Mat.add (vec_to_col_vec (xs.map embed))
    (vec_to_col_vec ((col_vec_to_vec r).map
      (fun sca => scalar_mul ((keyM.getD 0 []).getD 0 0) sca)))), rng)

/-- A concrete scalar stream 1, 2, 3, ... over the integers, starting at
position 0, for concrete evaluations. -/
def rng0 : Rng ℤ := ⟨fun n => (n : ℤ) + 1, 0⟩

/-- A concrete test key over the integers: `u` and `v` are 2 x 1 matrices of
pairs with basis entries (1, 0) and (0, 1). -/
def key0 : CRS ℤ ℤ :=
  ⟨[[((1 : ℤ), (0 : ℤ))], [(0, 1)]], [[((1 : ℤ), (0 : ℤ))], [(0, 1)]]⟩

/-- A second concrete key agreeing with `key0` on the entries `u[0][0]`,
`u[1][0]`, `v[0][0]`, `v[1][0]` but holding an extra row in each matrix. -/
def key1 : CRS ℤ ℤ :=
  ⟨[[((1 : ℤ), (0 : ℤ))], [(0, 1)], [(9, 9)]],
   [[((1 : ℤ), (0 : ℤ))], [(0, 1)], [(8, 8)]]⟩

/-- A concrete scalar embedding into `B1` over the integers, additive in the
scalar, for concrete evaluations. -/
def slm0 : scalar_linear_map_sig ℤ ℤ ℤ := fun x _ => (x, x)

/-- A concrete scalar embedding into `B2` over the integers. -/
def slm0' : scalar_linear_map_sig2 ℤ ℤ ℤ := fun y _ => (y, y)

section Lemmas

variable {Fr G1 G2 : Type} [CommRing Fr]
variable [AddCommGroup G1] [Module Fr G1] [AddCommGroup G2] [Module Fr G2]

/-- The group-batch randomness loop consumes exactly one draw per row. -/
lemma sample_shared_rows_rng (m : Nat) (rng : Rng Fr) :
    (sample_shared_rows m rng).2 = ⟨rng.stream, rng.pos + m⟩ := by
  induction m generalizing rng with
  | zero => cases rng; rfl
  | succ k ih =>
    show (sample_shared_rows k (⟨rng.stream, rng.pos + 1⟩ : Rng Fr)).2 = _
    rw [ih]
    show (⟨rng.stream, rng.pos + 1 + k⟩ : Rng Fr) = _
    congr 1
    omega

/-- The scalar-batch randomness loop consumes exactly one draw per row. -/
lemma sample_col_rng (m : Nat) (rng : Rng Fr) :
    (sample_col m rng).2 = ⟨rng.stream, rng.pos + m⟩ := by
  induction m generalizing rng with
  | zero => cases rng; rfl
  | succ k ih =>
    show (sample_col k (⟨rng.stream, rng.pos + 1⟩ : Rng Fr)).2 = _
    rw [ih]
    show (⟨rng.stream, rng.pos + 1 + k⟩ : Rng Fr) = _
    congr 1
    omega

/-- One step of `batch_commit_scalar_to_B1`: the head input is committed with
the head draw and the tail proceeds with the advanced randomness source. -/
lemma batch_commit_scalar_to_B1_cons (slm1 : scalar_linear_map_sig Fr G1 G2)
    (x : Fr) (xs : List Fr) (key : CRS G1 G2) (rng : Rng Fr) :
    batch_commit_scalar_to_B1 slm1 (x :: xs) key rng =
      (commit_scalar_to_B1_core slm1 x key (rng.stream rng.pos) ::
        (batch_commit_scalar_to_B1 slm1 xs key ⟨rng.stream, rng.pos + 1⟩).1,
       (batch_commit_scalar_to_B1 slm1 xs key ⟨rng.stream, rng.pos + 1⟩).2) := rfl

/-- One step of `batch_commit_scalar_to_B2`. -/
lemma batch_commit_scalar_to_B2_cons (slm2 : scalar_linear_map_sig2 Fr G1 G2)
    (y : Fr) (ys : List Fr) (key : CRS G1 G2) (rng : Rng Fr) :
    batch_commit_scalar_to_B2 slm2 (y :: ys) key rng =
      (commit_scalar_to_B2_core slm2 y key (rng.stream rng.pos) ::
        (batch_commit_scalar_to_B2 slm2 ys key ⟨rng.stream, rng.pos + 1⟩).1,
       (batch_commit_scalar_to_B2 slm2 ys key ⟨rng.stream, rng.pos + 1⟩).2) := rfl

/-- Closed form of the commitments produced by `batch_commit_scalar_to_B1`:
each input is committed in order with the successive stream draws. -/
lemma batch_commit_scalar_to_B1_fst (slm1 : scalar_linear_map_sig Fr G1 G2)
    (xs : List Fr) (key : CRS G1 G2) (rng : Rng Fr) :
    (batch_commit_scalar_to_B1 slm1 xs key rng).1 =
      List.zipWith (fun x i => commit_scalar_to_B1_core slm1 x key (rng.stream i))
        xs (List.range' rng.pos xs.length) := by
  induction xs generalizing rng with
  | nil => rfl
  | cons x xs ih =>
    have h := ih (⟨rng.stream, rng.pos + 1⟩ : Rng Fr)
    show commit_scalar_to_B1_core slm1 x key (rng.stream rng.pos) ::
        (batch_commit_scalar_to_B1 slm1 xs key ⟨rng.stream, rng.pos + 1⟩).1 = _
    rw [h, List.length_cons, List.range'_succ, List.zipWith_cons_cons]

/-- The scalar batch commitment advances the randomness source by exactly one
position per input. -/
lemma batch_commit_scalar_to_B1_rng (slm1 : scalar_linear_map_sig Fr G1 G2)
    (xs : List Fr) (key : CRS G1 G2) (rng : Rng Fr) :
    (batch_commit_scalar_to_B1 slm1 xs key rng).2 =
      ⟨rng.stream, rng.pos + xs.length⟩ := by
  show (sample_col xs.length rng).2 = _
  exact sample_col_rng _ _

/-- Closed form of the commitments produced by `batch_commit_scalar_to_B2`. -/
lemma batch_commit_scalar_to_B2_fst (slm2 : scalar_linear_map_sig2 Fr G1 G2)
    (ys : List Fr) (key : CRS G1 G2) (rng : Rng Fr) :
    (batch_commit_scalar_to_B2 slm2 ys key rng).1 =
      List.zipWith (fun y i => commit_scalar_to_B2_core slm2 y key (rng.stream i))
        ys (List.range' rng.pos ys.length) := by
  induction ys generalizing rng with
  | nil => rfl
  | cons y ys ih =>
    have h := ih (⟨rng.stream, rng.pos + 1⟩ : Rng Fr)
    show commit_scalar_to_B2_core slm2 y key (rng.stream rng.pos) ::
        (batch_commit_scalar_to_B2 slm2 ys key ⟨rng.stream, rng.pos + 1⟩).1 = _
    rw [h, List.length_cons, List.range'_succ, List.zipWith_cons_cons]

/-- The side-2 scalar batch commitment advances the randomness source by
exactly one position per input. -/
lemma batch_commit_scalar_to_B2_rng (slm2 : scalar_linear_map_sig2 Fr G1 G2)
    (ys : List Fr) (key : CRS G1 G2) (rng : Rng Fr) :
    (batch_commit_scalar_to_B2 slm2 ys key rng).2 =
      ⟨rng.stream, rng.pos + ys.length⟩ := by
  show (sample_col ys.length rng).2 = _
  exact sample_col_rng _ _

/-- One row of the substituted-randomness group batch: with the key matrix in
its 2 x 1 shape, committing `x :: xs` under randomness rows `[a, b] :: R`
commits the head exactly as the single-element commitment with `(a, b)`. -/
lemma batch_commit_G1_with_R_cons (x : G1) (xs : List G1) (key : CRS G1 G2)
    (a b : Fr) (R : Mat Fr) (c d : Com1 G1) (hu : key.u = [[c], [d]]) :
    batch_commit_G1_with_R (x :: xs) key ([a, b] :: R) =
      commit_G1_core x key a b :: batch_commit_G1_with_R xs key R := by
  simp [batch_commit_G1_with_R, commit_G1_core, Com1.batch_linear_map,
        vec_to_col_vec, col_vec_to_vec, Mat.add, Mat.left_mul, hu,
        CRS.u00, CRS.u10, scalar_mul, List.range_succ, List.range_zero,
        add_assoc]

end Lemmas

section Claims

variable {Fr G1 G2 : Type} [CommRing Fr]
variable [AddCommGroup G1] [Module Fr G1] [AddCommGroup G2] [Module Fr G2]

/-- C3: for every source-group element, key, and randomness source, the
single group-element commitments `commit_G1` and `commit_G2` draw exactly two
fresh uniform scalars `(r1, r2)` - the scalars at the current and next stream
positions - and return `embed(x) + r1 * key[0][0] + r2 * key[1][0]`, where the
key matrix is `u` for side 1 and `v` for side 2 and the embedding is that
side's fixed group-element embedding; the source advances by exactly two. -/
theorem commit_single_two_draws (x : G1) (y : G2) (key : CRS G1 G2)
    (rng : Rng Fr) :
    commit_G1 x key rng =
      (Com1.linear_map x + scalar_mul key.u00 (rng.stream rng.pos)
        + scalar_mul key.u10 (rng.stream (rng.pos + 1)),
       ⟨rng.stream, rng.pos + 2⟩) ∧
    commit_G2 y key rng =
      (Com2.linear_map y + scalar_mul key.v00 (rng.stream rng.pos)
        + scalar_mul key.v10 (rng.stream (rng.pos + 1)),
       ⟨rng.stream, rng.pos + 2⟩) :=
  ⟨rfl, rfl⟩

/-- C4: for every scalar, key, and randomness source, the single scalar
commitments `commit_scalar_to_B1` and `commit_scalar_to_B2` draw exactly one
fresh uniform scalar `r` and return `embed'(x) + r * key[0][0]`, where
`embed'` is the scalar-specific embedding of that side (an arbitrary map
supplied by the embedding provider, unconstrained here) and no second
blinding scalar is drawn: the source advances by exactly one position. -/
theorem commit_scalar_one_draw (slm1 : scalar_linear_map_sig Fr G1 G2)
    (slm2 : scalar_linear_map_sig2 Fr G1 G2) (x y : Fr) (key : CRS G1 G2)
    (rng : Rng Fr) :
    commit_scalar_to_B1 slm1 x key rng =
      (slm1 x key + scalar_mul key.u00 (rng.stream rng.pos),
       ⟨rng.stream, rng.pos + 1⟩) ∧
    commit_scalar_to_B2 slm2 y key rng =
      (slm2 y key + scalar_mul key.v00 (rng.stream rng.pos),
       ⟨rng.stream, rng.pos + 1⟩) :=
  ⟨rfl, rfl⟩

/-- C6: every batch commit operation applied to the empty input sequence
returns the empty sequence, leaves the randomness source untouched, and is
total at m = 0 for every key, with no key access needed. -/
theorem batch_commit_empty (slm1 : scalar_linear_map_sig Fr G1 G2)
    (slm2 : scalar_linear_map_sig2 Fr G1 G2) (key : CRS G1 G2) (rng : Rng Fr) :
    batch_commit_G1 ([] : List G1) key rng = ([], rng) ∧
    batch_commit_G2 ([] : List G2) key rng = ([], rng) ∧
    batch_commit_scalar_to_B1 slm1 [] key rng = ([], rng) ∧
    batch_commit_scalar_to_B2 slm2 [] key rng = ([], rng) := by
  cases rng
  exact ⟨rfl, rfl, rfl, rfl⟩

/-- C7: each of the eight commit operations is an instance of the single
side-parametrized algorithm (the `generic` definitions, written from the
spec's section 4.5): the side-2 function equals the side-1 algorithm applied
with the side-2 key matrix and embedding, for every input and every
randomness source, with the same draws in the same order. -/
theorem side_symmetry (slm1 : scalar_linear_map_sig Fr G1 G2)
    (slm2 : scalar_linear_map_sig2 Fr G1 G2) (x : G1) (y : G2) (a b : Fr)
    (xs : List G1) (ys : List G2) (zs ws : List Fr) (key : CRS G1 G2)
    (rng : Rng Fr) :
    commit_G1 x key rng = commit_generic key.u Com1.linear_map x rng ∧
    commit_G2 y key rng = commit_generic key.v Com2.linear_map y rng ∧
    batch_commit_G1 xs key rng = batch_commit_generic key.u Com1.linear_map xs rng ∧
    batch_commit_G2 ys key rng = batch_commit_generic key.v Com2.linear_map ys rng ∧
    commit_scalar_to_B1 slm1 a key rng =
      commit_scalar_generic key.u (fun t => slm1 t key) a rng ∧
    commit_scalar_to_B2 slm2 b key rng =
      commit_scalar_generic key.v (fun t => slm2 t key) b rng ∧
    batch_commit_scalar_to_B1 slm1 zs key rng =
      batch_commit_scalar_generic key.u (fun t => slm1 t key) zs rng ∧
    batch_commit_scalar_to_B2 slm2 ws key rng =
      batch_commit_scalar_generic key.v (fun t => slm2 t key) ws rng :=
  ⟨rfl, rfl, rfl, rfl, rfl, rfl, rfl, rfl⟩

/-- C10: every commit operation consumes a fixed, input-length-determined
number of draws in a fixed order - two for a single group-element commit, one
for a single scalar commit, and one per input row for each batch operation -
leaving the stream itself unchanged; since each operation is a function of
its inputs, key, and randomness source, two calls with identical inputs, key,
and stream state return identical outputs. -/
theorem commit_draw_counts (slm1 : scalar_linear_map_sig Fr G1 G2)
    (slm2 : scalar_linear_map_sig2 Fr G1 G2) (x : G1) (y : G2) (a b : Fr)
    (xs : List G1) (ys : List G2) (zs ws : List Fr) (key : CRS G1 G2)
    (rng : Rng Fr) :
    (commit_G1 x key rng).2 = ⟨rng.stream, rng.pos + 2⟩ ∧
    (commit_G2 y key rng).2 = ⟨rng.stream, rng.pos + 2⟩ ∧
    (commit_scalar_to_B1 slm1 a key rng).2 = ⟨rng.stream, rng.pos + 1⟩ ∧
    (commit_scalar_to_B2 slm2 b key rng).2 = ⟨rng.stream, rng.pos + 1⟩ ∧
    (batch_commit_G1 xs key rng).2 = ⟨rng.stream, rng.pos + xs.length⟩ ∧
    (batch_commit_G2 ys key rng).2 = ⟨rng.stream, rng.pos + ys.length⟩ ∧
    (batch_commit_scalar_to_B1 slm1 zs key rng).2 =
      ⟨rng.stream, rng.pos + zs.length⟩ ∧
    (batch_commit_scalar_to_B2 slm2 ws key rng).2 =
      ⟨rng.stream, rng.pos + ws.length⟩ :=
  ⟨rfl, rfl, rfl, rfl,
   sample_shared_rows_rng xs.length rng, sample_shared_rows_rng ys.length rng,
   sample_col_rng zs.length rng, sample_col_rng ws.length rng⟩

/-- C1 (refuted on the code; the code is the bug): the batch group-element
commitments build each row of the randomness matrix as `vec![rand; 2]`, which
evaluates the draw once and clones it, so both entries of each row are one
repeated draw and only one scalar per row is consumed - not two distinct
fresh draws as the claim and the single-element path require.  Concretely,
with the stream 1, 2, 3, ... the two-row matrix is `[[1, 1], [2, 2]]` (two
distinct draws per row would give `[[1, 2], [3, 4]]`), only two draws are
consumed, and the resulting batch output differs from the output that two
independent draws per row would produce. -/
theorem batch_commit_shares_row_randomness :
    (sample_shared_rows 2 rng0).1 = [[(1 : ℤ), 1], [2, 2]] ∧
    (sample_shared_rows 2 rng0).1 ≠ [[(1 : ℤ), 2], [3, 4]] ∧
    (sample_shared_rows 2 rng0).2.pos = 2 ∧
    (batch_commit_G1 [(5 : ℤ), 7] key0 rng0).1 =
      [commit_G1_core 5 key0 (1 : ℤ) 1, commit_G1_core 7 key0 (2 : ℤ) 2] ∧
    (batch_commit_G1 [(5 : ℤ), 7] key0 rng0).1 ≠
      [commit_G1_core 5 key0 (1 : ℤ) 2, commit_G1_core 7 key0 (3 : ℤ) 4] := by
  refine ⟨rfl, by decide, rfl, rfl, by decide⟩

/-- C2: the batch group commitment with the randomness matrix substituted
produces exactly one commitment per input, in input order, and the i-th
output equals the single-element commitment of the i-th input with the i-th
randomness row `(a, b)`, for every key in its 2 x 1 shape. -/
theorem batch_commit_G1_matches_single (xvars : List G1) (rs : List (Fr × Fr))
    (key : CRS G1 G2) (c d : Com1 G1) (hu : key.u = [[c], [d]])
    (hlen : rs.length = xvars.length) :
    (batch_commit_G1_with_R xvars key (rs.map (fun p => [p.1, p.2]))).length
      = xvars.length ∧
    ∀ i, i < xvars.length →
      (batch_commit_G1_with_R xvars key (rs.map (fun p => [p.1, p.2]))).getD i 0 =
        commit_G1_core (xvars.getD i 0) key (rs.getD i (0, 0)).1
          (rs.getD i (0, 0)).2 := by
  induction xvars generalizing rs with
  | nil =>
    cases rs with
    | nil => exact ⟨rfl, fun i hi => absurd hi (Nat.not_lt_zero i)⟩
    | cons p ps => simp at hlen
  | cons x xs ih =>
    cases rs with
    | nil => simp at hlen
    | cons p ps =>
      have hlen' : ps.length = xs.length := by simpa using hlen
      have hrec := ih ps hlen'
      have hcons := batch_commit_G1_with_R_cons x xs key p.1 p.2
        (ps.map (fun q => [q.1, q.2])) c d hu
      refine ⟨?_, ?_⟩
      · simp only [List.map_cons]
        rw [hcons]
        simp [hrec.1]
      · intro i hi
        simp only [List.map_cons]
        rw [hcons]
        cases i with
        | zero => simp
        | succ j =>
          simp only [List.getD_cons_succ]
          simp only [List.length_cons] at hi
          exact hrec.2 j (by omega)

/-- Witness for C2: the theorem applied to the inputs 5, 7 with randomness
rows (1, 2) and (3, 4) under the concrete key. -/
theorem batch_commit_G1_matches_single_witness :
    (batch_commit_G1_with_R [(5 : ℤ), 7] key0
      ([((1 : ℤ), (2 : ℤ)), (3, 4)].map (fun p => [p.1, p.2]))).length = 2 ∧
    (batch_commit_G1_with_R [(5 : ℤ), 7] key0
      ([((1 : ℤ), (2 : ℤ)), (3, 4)].map (fun p => [p.1, p.2]))).getD 0 0 =
      commit_G1_core 5 key0 (1 : ℤ) 2 ∧
    (batch_commit_G1_with_R [(5 : ℤ), 7] key0
      ([((1 : ℤ), (2 : ℤ)), (3, 4)].map (fun p => [p.1, p.2]))).getD 1 0 =
      commit_G1_core 7 key0 (3 : ℤ) 4 := by
  have h := batch_commit_G1_matches_single [(5 : ℤ), 7]
    [((1 : ℤ), (2 : ℤ)), (3, 4)] key0 (1, 0) (0, 1) rfl rfl
  exact ⟨h.1, by simpa using h.2 0 (by decide), by simpa using h.2 1 (by decide)⟩

/-- C5: the batch scalar commitments sample one fresh uniform scalar per
input (the stream scalars at consecutive positions, an mprime x 1 column),
multiply each against only the first key basis entry of its side, add the
result pointwise to the scalar embedding of the inputs, and return the
commitments in input order, advancing the source by one position per input. -/
theorem batch_commit_scalar_formula (slm1 : scalar_linear_map_sig Fr G1 G2)
    (slm2 : scalar_linear_map_sig2 Fr G1 G2) (xs ys : List Fr)
    (key : CRS G1 G2) (rng : Rng Fr) :
    (batch_commit_scalar_to_B1 slm1 xs key rng).1 =
      List.zipWith (fun x i => slm1 x key + scalar_mul key.u00 (rng.stream i))
        xs (List.range' rng.pos xs.length) ∧
    (batch_commit_scalar_to_B1 slm1 xs key rng).2 =
      ⟨rng.stream, rng.pos + xs.length⟩ ∧
    (batch_commit_scalar_to_B2 slm2 ys key rng).1 =
      List.zipWith (fun y i => slm2 y key + scalar_mul key.v00 (rng.stream i))
        ys (List.range' rng.pos ys.length) ∧
    (batch_commit_scalar_to_B2 slm2 ys key rng).2 =
      ⟨rng.stream, rng.pos + ys.length⟩ :=
  ⟨batch_commit_scalar_to_B1_fst slm1 xs key rng,
   batch_commit_scalar_to_B1_rng slm1 xs key rng,
   batch_commit_scalar_to_B2_fst slm2 ys key rng,
   batch_commit_scalar_to_B2_rng slm2 ys key rng⟩

/-- C8: commitment is homomorphic under fixed randomness: adding the
commitments of `x1` under `(r1, r2)` and of `x2` under `(r3, r4)` gives
exactly the embedding of `x1 + x2` plus the summed randomizers against the
key basis; the same holds for scalar commitments whenever the supplied scalar
embedding is additive at the committed points. -/
theorem commit_homomorphic (x1 x2 : G1) (key : CRS G1 G2) (r1 r2 r3 r4 : Fr)
    (slm1 : scalar_linear_map_sig Fr G1 G2) (a b ra rb : Fr)
    (hadd : slm1 (a + b) key = slm1 a key + slm1 b key) :
    commit_G1_core x1 key r1 r2 + commit_G1_core x2 key r3 r4 =
      Com1.linear_map (x1 + x2) + scalar_mul key.u00 (r1 + r3)
        + scalar_mul key.u10 (r2 + r4) ∧
    commit_scalar_to_B1_core slm1 a key ra
        + commit_scalar_to_B1_core slm1 b key rb =
      slm1 (a + b) key + scalar_mul key.u00 (ra + rb) := by
  constructor
  · have hlin : (Com1.linear_map (x1 + x2) : Com1 G1)
        = Com1.linear_map x1 + Com1.linear_map x2 := by
      simp [Com1.linear_map, Prod.mk_add_mk]
    simp only [commit_G1_core, scalar_mul, add_smul, hlin]
    abel
  · rw [hadd]
    simp only [commit_scalar_to_B1_core, scalar_mul, add_smul]
    abel

/-- Witness for C8: the theorem applied over the integers with the additive
concrete scalar embedding. -/
theorem commit_homomorphic_witness :
    commit_G1_core (5 : ℤ) key0 (1 : ℤ) 2 + commit_G1_core 7 key0 (3 : ℤ) 4 =
      Com1.linear_map ((5 : ℤ) + 7) + scalar_mul key0.u00 ((1 : ℤ) + 3)
        + scalar_mul key0.u10 ((2 : ℤ) + 4) ∧
    commit_scalar_to_B1_core slm0 1 key0 5
        + commit_scalar_to_B1_core slm0 2 key0 6 =
      slm0 ((1 : ℤ) + 2) key0 + scalar_mul key0.u00 ((5 : ℤ) + 6) :=
  commit_homomorphic 5 7 key0 1 2 3 4 slm0 1 2 5 6 (by decide)

/-- C9: the single-element commitments read the key only through the entries
`u[0][0]`, `u[1][0]` (side 1) and `v[0][0]`, `v[1][0]` (side 2): two keys
agreeing on those entries yield identical single-commit outputs for every
input and randomness even when they differ elsewhere, while the batch
commitment combines the sampled randomness with the full key matrix by
matrix multiplication (`Mat.left_mul` applied to all of `key.u`). -/
theorem single_commit_key_first_column (key key' : CRS G1 G2)
    (hu0 : key.u00 = key'.u00) (hu1 : key.u10 = key'.u10)
    (hv0 : key.v00 = key'.v00) (hv1 : key.v10 = key'.v10)
    (x : G1) (y : G2) (xs : List G1) (rng : Rng Fr) :
    commit_G1 x key rng = commit_G1 x key' rng ∧
    commit_G2 y key rng = commit_G2 y key' rng ∧
    batch_commit_G1 xs key rng =
      (col_vec_to_vec (Mat.add (vec_to_col_vec (Com1.batch_linear_map xs))
        (Mat.left_mul key.u (sample_shared_rows xs.length rng).1)),
       (sample_shared_rows xs.length rng).2) := by
  refine ⟨?_, ?_, rfl⟩
  · show (commit_G1_core x key _ _, _) = (commit_G1_core x key' _ _, _)
    simp only [commit_G1_core, hu0, hu1]
  · show (commit_G2_core y key _ _, _) = (commit_G2_core y key' _ _, _)
    simp only [commit_G2_core, hv0, hv1]

/-- Witness for C9: `key0` and `key1` agree on the four first-column entries
but differ in an extra matrix row, and the single commitments coincide. -/
theorem single_commit_key_first_column_witness :
    commit_G1 (5 : ℤ) key0 rng0 = commit_G1 5 key1 rng0 ∧
    commit_G2 (3 : ℤ) key0 rng0 = commit_G2 3 key1 rng0 :=
  ⟨(single_commit_key_first_column key0 key1 rfl rfl rfl rfl 5 3 [] rng0).1,
   (single_commit_key_first_column key0 key1 rfl rfl rfl rfl 5 3 [] rng0).2.1⟩

end Claims

end GS
